import Mathlib

/-!
Verification development for the whisper-transcribe-app repository.

The file shallowly embeds the two algorithmic cores of `app.py`:

* the fixed-window audio chunking and sequential transcription-merge
  pipeline of `transcribe_audio` / `process_audio_chunk`, and
* the WebVTT cue-text extractor of `read_vtt_file` together with the
  inline copy of the same loop used for pasted text.

Strings are modelled as `List Char`.  Durations are modelled as exact
rationals: pydub's fractional `duration_seconds` (`frame_count /
frame_rate`) and the independently rounded `len(audio)` =
`round(1000 * duration_seconds)` are kept as two separate quantities,
because `transcribe_audio` computes `num_chunks` from the former and
`end_ms` from the latter.
-/

namespace WhisperApp

/-! ## Audio chunking (`transcribe_audio`, app.py lines 386-400) -/

/-- Fixed chunk window in seconds; the code sets `chunk_size_sec = 10`. -/
def chunk_size_sec : Nat := 10

/-- Number of chunks, `num_chunks = math.ceil(duration_sec / chunk_size_sec)`,
specialised to an audio stream whose duration is exactly `durationMs`
milliseconds, so that `duration_sec = durationMs / 1000` and
`len(audio) = durationMs` agree; `w` is the window in seconds.  The
general case in which pydub's fractional `duration_seconds` and the
rounded `len(audio)` are independent quantities is `numChunksSec` and
`audioLen` below. -/
def numChunks (durationMs w : Nat) : Nat :=
  (Int.ceil ((durationMs : ℚ) / 1000 / w)).toNat

/-- Chunk start: `start_ms = i * chunk_size_sec * 1000`. -/
def chunkStart (w i : Nat) : Nat := i * w * 1000

/-- Chunk end: `end_ms = min((i + 1) * chunk_size_sec * 1000, len(audio))`,
where `len(audio)` is the total duration in milliseconds. -/
def chunkEnd (durationMs w i : Nat) : Nat :=
  min ((i + 1) * w * 1000) durationMs

/-- The full list of generated chunk intervals, in index order. -/
def chunkList (durationMs w : Nat) : List (Nat × Nat) :=
  (List.range (numChunks durationMs w)).map
    (fun i => (chunkStart w i, chunkEnd durationMs w i))

/-! ## Fractional-seconds chunking model

pydub's `audio.duration_seconds` is `frame_count / frame_rate`, a
fractional number of seconds, while `len(audio)` is the separately
rounded `round(1000 * duration_seconds)`.  `transcribe_audio` computes
`num_chunks` from the former (line 388) but `end_ms` from the latter
(line 399), so the two quantities are modelled independently from the
exact rational duration `s`. -/

/-- Python `round` (round half to even), as used by pydub's `__len__`. -/
def pyRound (x : ℚ) : ℤ :=
  if x - (Int.floor x : ℚ) < 1/2 then Int.floor x
  else if 1/2 < x - (Int.floor x : ℚ) then Int.floor x + 1
  else if Int.floor x % 2 = 0 then Int.floor x else Int.floor x + 1

/-- pydub `len(audio)`: the duration in milliseconds,
`round(1000 * duration_seconds)`. -/
def audioLen (s : ℚ) : ℕ := (pyRound (1000 * s)).toNat

/-- `num_chunks = math.ceil(duration_sec / chunk_size_sec)` computed from
the fractional `duration_seconds`. -/
def numChunksSec (s : ℚ) (w : ℕ) : ℕ := (Int.ceil (s / (w : ℚ))).toNat

/-- `end_ms = min((i + 1) * chunk_size_sec * 1000, len(audio))`, capping
at the rounded millisecond length. -/
def chunkEndSec (s : ℚ) (w i : ℕ) : ℕ := min ((i + 1) * w * 1000) (audioLen s)

/-- A duration of 882009 frames at 44100 Hz: 20.00020... seconds, whose
`len(audio)` rounds down to 20000 ms while `ceil(duration_sec / 10)`
is 3, so the real loop emits the empty final chunk interval from 20000
to 20000. -/
def c1BadSec : ℚ := 882009 / 44100

/-! ## Python string primitives used by the code -/

/-- Python whitespace predicate used by `str.strip()` (ASCII range). -/
def pyIsSpace (c : Char) : Bool :=
  c == ' ' || c == '\t' || c == '\n' || c == '\r' || c == '\x0b' || c == '\x0c'

/-- Remove trailing whitespace, as the second half of Python `strip()`. -/
def stripTrail (l : List Char) : List Char :=
  (l.reverse.dropWhile pyIsSpace).reverse

/-- Python `str.strip()`: remove leading and trailing whitespace. -/
def pyStrip (l : List Char) : List Char :=
  (stripTrail l).dropWhile pyIsSpace

/-- Python `content.split("\n")`. -/
def splitNl : List Char → List (List Char)
  | [] => [[]]
  | c :: rest =>
    if c = '\n' then [] :: splitNl rest
    else
      match splitNl rest with
      | [] => [[c]]
      | h :: t => (c :: h) :: t

/-- Python `line.isdigit()` (ASCII digits): nonempty and all digits. -/
def pyIsDigit (l : List Char) : Bool :=
  !l.isEmpty && l.all Char.isDigit

/-- Python `" ".join(parts)`. -/
def joinSpace : List (List Char) → List Char
  | [] => []
  | [s] => s
  | s :: t :: rest => s ++ ' ' :: joinSpace (t :: rest)

/-! ## Tag stripping, `re.sub(r'<[^>]+>', '', line)`

A match starts at a `<`, consumes at least one character that is not
`>`, and ends at the first following `>`.  The scan below carries an
optional buffer of the characters seen since an unclosed `<`. -/

/-- Worker for `stripTags`; `pending = some buf` means a `<` was seen and
`buf` holds the characters after it, none of which was `>` yet. -/
def stripTagsGo : List Char → Option (List Char) → List Char
  | [], none => []
  | [], some buf => '<' :: buf
  | c :: rest, none =>
    if c = '<' then stripTagsGo rest (some [])
    else c :: stripTagsGo rest none
  | c :: rest, some buf =>
    if c = '>' then
      if buf.isEmpty then '<' :: '>' :: stripTagsGo rest none
      else stripTagsGo rest none
    else stripTagsGo rest (some (buf ++ [c]))

/-- Remove every substring matching the regex `<[^>]+>`. -/
def stripTags (l : List Char) : List Char := stripTagsGo l none

/-! ## VTT line classification (`read_vtt_file` fallback loop, lines 313-339) -/

/-- The characters of the cue-timing marker checked by `"-->" in line`. -/
def arrowStr : List Char := ['-', '-', '>']

/-- Does the line contain the substring checked by `"-->" in line`? -/
def hasArrow : List Char → Bool
  | [] => false
  | c :: rest => arrowStr.isPrefixOf (c :: rest) || hasArrow rest

/-- Keyword list of `line.startswith(("WEBVTT", "NOTE", "STYLE", "REGION"))`. -/
def metaKeywords : List (List Char) :=
  [['W', 'E', 'B', 'V', 'T', 'T'], ['N', 'O', 'T', 'E'],
   ['S', 'T', 'Y', 'L', 'E'], ['R', 'E', 'G', 'I', 'O', 'N']]

/-- Python `line.startswith(("WEBVTT", "NOTE", "STYLE", "REGION"))`. -/
def startsWithMeta (l : List Char) : Bool :=
  metaKeywords.any (fun k => k.isPrefixOf l)

/-- The header token checked by `content.startswith("WEBVTT")`. -/
def webvttHeader : List Char := ['W', 'E', 'B', 'V', 'T', 'T']

/-- One iteration of the fallback loop body; the state is the mutable
`in_cue` flag paired with the accumulated `text_lines`. -/
def vttLineStep (st : Bool × List (List Char)) (raw : List Char) :
    Bool × List (List Char) :=
  if hasArrow (pyStrip raw) then (true, st.2)
  else if (pyStrip raw).isEmpty then (false, st.2)
  else if pyIsDigit (pyStrip raw) then st
  else if startsWithMeta (pyStrip raw) then st
  else if st.1 then
    if (stripTags (pyStrip raw)).isEmpty then st
    else (st.1, st.2 ++ [stripTags (pyStrip raw)])
  else st

/-- The `text_lines` produced by folding the loop body over the lines. -/
def vttExtractLines (ls : List (List Char)) : List (List Char) :=
  (ls.foldl vttLineStep (false, [])).2

/-- Output of the fallback path: split on newlines, run the loop, and
join the retained lines with a single space. -/
def vttFallbackOutput (content : List Char) : List Char :=
  joinSpace (vttExtractLines (splitNl content))

/-! ## The `read_vtt_file` function (app.py lines 286-342)

The webvtt-py library is an external collaborator; it is modelled as a
function argument returning either the parsed caption texts or a
failure.  `WEBVTT_AVAILABLE` is the `avail` flag.  The second component
of the result records whether the fallback warning (`st.warning`) was
emitted. -/

/-- Error raised when no `WEBVTT` header token is present. -/
inductive VttErr where
  | formatError
deriving DecidableEq

/-- Library-path postprocessing (lines 298-304): strip tags from every
caption text, keep the stripped text when nonempty, join with spaces. -/
def libPathOutput (caps : List (List Char)) : List Char :=
  joinSpace ((caps.map (fun t => pyStrip (stripTags t))).filter (fun t => !t.isEmpty))

/-- Shallow embedding of `read_vtt_file`: try the library when available,
fall back (with a warning) when it fails, and raise `formatError` when
the fallback finds no `WEBVTT` header. -/
def read_vtt_file (avail : Bool) (lib : List Char → Except Unit (List (List Char)))
    (content : List Char) : Except VttErr (List Char) × Bool :=
  if avail then
    match lib content with
    | Except.ok caps => (Except.ok (libPathOutput caps), false)
    | Except.error _ =>
      if webvttHeader.isPrefixOf content then
        (Except.ok (vttFallbackOutput content), true)
      else (Except.error VttErr.formatError, true)
  else
    if webvttHeader.isPrefixOf content then
      (Except.ok (vttFallbackOutput content), false)
    else (Except.error VttErr.formatError, false)

/-! ## The inline pasted-text VTT loop (`show_main_page`, lines 750-784)

The loop body is a verbatim copy of the fallback loop in
`read_vtt_file`; it is embedded separately so that the equivalence of
the two code paths is a theorem about two distinct definitions. -/

/-- One iteration of the pasted-text extraction loop body. -/
def pastedLineStep (st : Bool × List (List Char)) (raw : List Char) :
    Bool × List (List Char) :=
  if hasArrow (pyStrip raw) then (true, st.2)
  else if (pyStrip raw).isEmpty then (false, st.2)
  else if pyIsDigit (pyStrip raw) then st
  else if startsWithMeta (pyStrip raw) then st
  else if st.1 then
    if (stripTags (pyStrip raw)).isEmpty then st
    else (st.1, st.2 ++ [stripTags (pyStrip raw)])
  else st

/-- The pasted-text path output: `extracted_text = " ".join(text_lines)`.
No header check is performed on this path. -/
def pastedVttOutput (content : List Char) : List Char :=
  joinSpace ((splitNl content).foldl pastedLineStep (false, [])).2

/-! ## The transcription merge loop (`transcribe_audio`, lines 393-438)

The Whisper model call is the external transcription capability `tr`;
chunk `i`'s audio is identified by its index.  `process_audio_chunk`
returns the transcription result paired with a flag recording that the
`finally` block released the temporary chunk file. -/

/-- Embedding of `process_audio_chunk` (lines 77-89): invoke the
capability inside a `try`/`finally` that always deletes the temporary
chunk file; the `Bool` records that the deletion ran. -/
def process_audio_chunk {ε α : Type} (tr : α → Except ε (List Char)) (seg : α) :
    Except ε (List Char) × Bool :=
  match tr seg with
  | Except.ok t => (Except.ok t, true)
  | Except.error e => (Except.error e, true)

/-- The sequential per-chunk loop: `transcribed_text += chunk_text + " "`,
stopping at the first failing chunk. -/
def transcribeLoop {ε : Type} (tr : Nat → Except ε (List Char)) :
    List Nat → List Char → Except ε (List Char)
  | [], acc => Except.ok acc
  | i :: rest, acc =>
    match (process_audio_chunk tr i).1 with
    | Except.ok s => transcribeLoop tr rest (acc ++ s ++ [' '])
    | Except.error e => Except.error e

/-- Embedding of the chunk loop of `transcribe_audio`: on success the
accumulated text is returned through `.strip()`; an exception raised by
any chunk is caught by the outer handler, which returns `None`. -/
def transcribe_audio {ε : Type} (tr : Nat → Except ε (List Char)) (n : Nat) :
    Option (List Char) :=
  match transcribeLoop tr (List.range n) [] with
  | Except.ok t => some (pyStrip t)
  | Except.error _ => none

/-- Concatenation of `s + " "` over all segments, the loop's invariant. -/
def joinSp (segs : List (List Char)) : List Char :=
  (segs.map (fun s => s ++ [' '])).flatten

/-- Progress report after chunk `i` of `n` completes (lines 410-417):
`progress = (i + 1) / num_chunks` and
`eta = (elapsed / progress - elapsed) if progress > 0 else 0`. -/
def progressUpdate (i n : Nat) (elapsed : ℚ) : ℚ × ℚ :=
  (((i : ℚ) + 1) / n,
   if ((i : ℚ) + 1) / n > 0 then elapsed / (((i : ℚ) + 1) / n) - elapsed else 0)

/-! ## Specification-side definitions -/

/-- Declarative restatement of the section 4.2 line-classification rules
of the specification: a recursion over the document's lines carrying
the inside-a-cue flag, returning the retained tag-stripped cue lines in
document order.  Compared against the imperative fold `vttExtractLines`. -/
def specExtract : Bool → List (List Char) → List (List Char)
  | _, [] => []
  | b, raw :: rest =>
    if hasArrow (pyStrip raw) then specExtract true rest
    else if (pyStrip raw).isEmpty then specExtract false rest
    else if pyIsDigit (pyStrip raw) then specExtract b rest
    else if startsWithMeta (pyStrip raw) then specExtract b rest
    else if b then
      if (stripTags (pyStrip raw)).isEmpty then specExtract b rest
      else stripTags (pyStrip raw) :: specExtract b rest
    else specExtract b rest

/-! ## Concrete inputs used by examples and witnesses -/

/-- The cue-sheet example of specification section 8.5. -/
def ex85 : List Char :=
  "WEBVTT\n\n1\n00:00:00.000 ".toList ++ arrowStr ++
  " 00:00:02.000\nHello <b>world</b>\n\n2\n00:00:02.000 ".toList ++ arrowStr ++
  " 00:00:04.000\nSecond line\n".toList

/-- A line whose trimmed content starts with `NOTE` but which also
contains the cue-timing marker. -/
def c8NoteLine : List Char := "NOTE a ".toList ++ arrowStr ++ " b".toList

/-- A plain cue-timing line, used to open a cue body in witnesses. -/
def c8TsLine : List Char :=
  "00:00:00.000 ".toList ++ arrowStr ++ " 00:00:02.000".toList

/-! ## Arithmetic helper lemmas -/

lemma ceilDiv_bounds (a W : Nat) (hW : 0 < W) :
    a ≤ ((a + W - 1) / W) * W ∧ ((a + W - 1) / W) * W < a + W := by
  have h1 := Nat.div_add_mod (a + W - 1) W
  have h2 := Nat.mod_lt (a + W - 1) hW
  rw [Nat.mul_comm] at h1
  omega

lemma ceil_cast_div (a W : Nat) (hW : 0 < W) :
    Int.ceil ((a : ℚ) / W) = ((a + W - 1) / W : Nat) := by
  obtain ⟨hle, hlt⟩ := ceilDiv_bounds a W hW
  have hWQ : (0 : ℚ) < W := by exact_mod_cast hW
  set k : Nat := (a + W - 1) / W with hk
  have hle' : (a : ℚ) ≤ (k : ℚ) * W := by exact_mod_cast hle
  have hlt' : (k : ℚ) * W < (a : ℚ) + W := by exact_mod_cast hlt
  rw [Int.ceil_eq_iff]
  constructor
  · rw [lt_div_iff₀ hWQ]
    push_cast
    nlinarith
  · rw [div_le_iff₀ hWQ]
    push_cast
    linarith

lemma numChunks_eq (d w : Nat) (hw : 0 < w) :
    numChunks d w = (d + w * 1000 - 1) / (w * 1000) := by
  have hW : 0 < w * 1000 := by positivity
  have hcast : ((d : ℚ) / 1000 / w) = (d : ℚ) / ((w * 1000 : ℕ) : ℚ) := by
    push_cast
    rw [div_div]
    ring_nf
  rw [numChunks, hcast, ceil_cast_div d (w * 1000) hW]
  exact Int.toNat_natCast _

lemma lt_succ_div_mul (t W : Nat) (hW : 0 < W) : t < (t / W + 1) * W := by
  have h1 := Nat.div_add_mod t W
  have h2 := Nat.mod_lt t hW
  rw [Nat.mul_comm] at h1
  rw [Nat.add_mul, Nat.one_mul]
  omega

lemma pyRound_bounds (x : ℚ) :
    x - 1/2 ≤ (pyRound x : ℚ) ∧ (pyRound x : ℚ) ≤ x + 1/2 := by
  have hf := Int.floor_le x
  have hf2 := Int.lt_floor_add_one x
  rw [pyRound]
  split_ifs with h1 h2 h3 <;> constructor <;> push_cast <;> linarith

lemma pyRound_nonneg (x : ℚ) (hx : 0 ≤ x) : 0 ≤ pyRound x := by
  have h0 : 0 ≤ Int.floor x := Int.floor_nonneg.mpr hx
  rw [pyRound]
  split_ifs <;> omega

lemma chunkSec_bounds (s : ℚ) (w : ℕ) (hs : 0 < s) (hw : 0 < w) :
    (numChunksSec s w - 1) * (w * 1000) ≤ audioLen s
    ∧ audioLen s ≤ numChunksSec s w * (w * 1000)
    ∧ 0 < numChunksSec s w := by
  have hwq : (0 : ℚ) < (w : ℚ) := by exact_mod_cast hw
  obtain ⟨hRl, hRu⟩ := pyRound_bounds (1000 * s)
  set N : ℤ := Int.ceil (s / (w : ℚ)) with hNdef
  set R : ℤ := pyRound (1000 * s) with hRdef
  have hN0 : 0 < N := Int.ceil_pos.mpr (by positivity)
  have hR0 : 0 ≤ R := pyRound_nonneg _ (by positivity)
  have hcl : ((N : ℚ) - 1) * w < s := by
    have h1 : (N : ℚ) < s / w + 1 := Int.ceil_lt_add_one (s / w)
    have h2 : ((N : ℚ) - 1) < s / w := by linarith
    calc ((N : ℚ) - 1) * w < (s / w) * w := mul_lt_mul_of_pos_right h2 hwq
      _ = s := div_mul_cancel₀ s (ne_of_gt hwq)
  have hcu : s ≤ (N : ℚ) * w := by
    have h1 : s / w ≤ (N : ℚ) := Int.le_ceil _
    calc s = (s / w) * w := (div_mul_cancel₀ s (ne_of_gt hwq)).symm
      _ ≤ (N : ℚ) * w := mul_le_mul_of_nonneg_right h1 (le_of_lt hwq)
  have key1 : (N - 1) * ((w : ℤ) * 1000) ≤ R := by
    have hq : (((N - 1) * ((w : ℤ) * 1000) : ℤ) : ℚ) < (R : ℚ) + 1 := by
      push_cast
      linarith
    have hz : (N - 1) * ((w : ℤ) * 1000) < R + 1 := by exact_mod_cast hq
    omega
  have key2 : R ≤ N * ((w : ℤ) * 1000) := by
    have hq : (R : ℚ) < (((N * ((w : ℤ) * 1000)) : ℤ) : ℚ) + 1 := by
      push_cast
      linarith
    have hz : R < N * ((w : ℤ) * 1000) + 1 := by exact_mod_cast hq
    omega
  have hNt : (numChunksSec s w : ℤ) = N := by
    rw [numChunksSec, ← hNdef]
    exact Int.toNat_of_nonneg (le_of_lt hN0)
  have hLt : (audioLen s : ℤ) = R := by
    rw [audioLen, ← hRdef]
    exact Int.toNat_of_nonneg hR0
  have h1 : 1 ≤ numChunksSec s w := by omega
  refine ⟨?_, ?_, by omega⟩
  · zify [h1]
    rw [hNt, hLt]
    exact key1
  · zify
    rw [hNt, hLt]
    exact key2

/-! ## Merge loop helper lemmas -/

lemma transcribeLoop_ok {ε : Type} (tr : Nat → Except ε (List Char))
    (f : Nat → List Char) :
    ∀ (idxs : List Nat) (acc : List Char),
      (∀ i ∈ idxs, tr i = Except.ok (f i)) →
      transcribeLoop tr idxs acc = Except.ok (acc ++ joinSp (idxs.map f)) := by
  intro idxs
  induction idxs with
  | nil => intro acc _; simp [transcribeLoop, joinSp]
  | cons i rest ih =>
    intro acc h
    have hi : tr i = Except.ok (f i) := h i (by simp)
    simp only [transcribeLoop, process_audio_chunk, hi]
    rw [ih _ (fun j hj => h j (by simp [hj]))]
    simp [joinSp, List.append_assoc]

lemma transcribeLoop_err {ε : Type} (tr : Nat → Except ε (List Char)) :
    ∀ (idxs : List Nat) (acc : List Char) (i : Nat) (e : ε),
      i ∈ idxs → tr i = Except.error e →
      ∃ e2, transcribeLoop tr idxs acc = Except.error e2 := by
  intro idxs
  induction idxs with
  | nil =>
    intro acc i e hmem _
    exact absurd hmem (by simp)
  | cons j rest ih =>
    intro acc i e hmem hi
    cases hj : tr j with
    | error e3 => exact ⟨e3, by simp only [transcribeLoop, process_audio_chunk, hj]⟩
    | ok s =>
      simp only [transcribeLoop, process_audio_chunk, hj]
      rcases List.mem_cons.1 hmem with h | h
      · subst h; rw [hj] at hi; exact absurd hi (by simp)
      · exact ih _ i e h hi

lemma map_getD_range {α : Type} (l : List α) (d : α) :
    (List.range l.length).map (fun i => l.getD i d) = l := by
  induction l with
  | nil => simp
  | cons a rest ih =>
    rw [List.length_cons, List.range_succ_eq_map]
    simp [List.map_map, Function.comp_def]
    simpa [List.getD] using ih

lemma joinSp_eq_joinSpace :
    ∀ segs : List (List Char), segs ≠ [] → joinSp segs = joinSpace segs ++ [' ']
  | [], h => absurd rfl h
  | [s], _ => by simp [joinSp, joinSpace]
  | s :: t :: rest, _ => by
    have ih := joinSp_eq_joinSpace (t :: rest) (by simp)
    simp only [joinSp, List.map_cons, List.flatten_cons] at ih ⊢
    rw [ih]
    simp [joinSpace, List.append_assoc]

lemma pyStrip_append_space (l : List Char) : pyStrip (l ++ [' ']) = pyStrip l := by
  unfold pyStrip stripTrail
  rw [List.reverse_append]
  simp [pyIsSpace]

/-! ## VTT extractor helper lemmas -/

lemma foldl_vtt_eq_spec :
    ∀ (ls : List (List Char)) (b : Bool) (acc : List (List Char)),
      (ls.foldl vttLineStep (b, acc)).2 = acc ++ specExtract b ls := by
  intro ls
  induction ls with
  | nil => intro b acc; simp [specExtract]
  | cons raw rest ih =>
    intro b acc
    rw [List.foldl_cons]
    by_cases h1 : hasArrow (pyStrip raw)
    · simp only [vttLineStep, h1, if_true]
      rw [ih]
      simp [specExtract, h1]
    · by_cases h2 : (pyStrip raw).isEmpty
      · simp only [vttLineStep, h1, h2, if_true, Bool.false_eq_true, if_false]
        rw [ih]
        simp [specExtract, h1, h2]
      · by_cases h3 : pyIsDigit (pyStrip raw)
        · simp only [vttLineStep, h1, h2, h3, if_true, Bool.false_eq_true, if_false]
          rw [ih]
          simp [specExtract, h1, h2, h3]
        · by_cases h4 : startsWithMeta (pyStrip raw)
          · simp only [vttLineStep, h1, h2, h3, h4, if_true, Bool.false_eq_true, if_false]
            rw [ih]
            simp [specExtract, h1, h2, h3, h4]
          · by_cases h5 : b
            · by_cases h6 : (stripTags (pyStrip raw)).isEmpty
              · simp only [vttLineStep, h1, h2, h3, h4, h5, h6, if_true,
                  Bool.false_eq_true, if_false]
                rw [ih]
                simp [specExtract, h1, h2, h3, h4, h5, h6]
              · simp only [vttLineStep, h1, h2, h3, h4, h5, h6, if_true,
                  Bool.false_eq_true, if_false]
                rw [ih]
                simp [specExtract, h1, h2, h3, h4, h5, h6]
            · simp only [vttLineStep, h1, h2, h3, h4, h5, if_true,
                Bool.false_eq_true, if_false]
              rw [ih]
              simp [specExtract, h1, h2, h3, h4, h5]


lemma startsWithMeta_head :
    ∀ (c : Char) (rest : List Char), startsWithMeta (c :: rest) = true →
      c = 'W' ∨ c = 'N' ∨ c = 'S' ∨ c = 'R' := by
  intro c rest h
  have hex : ∃ k ∈ metaKeywords, k.isPrefixOf (c :: rest) = true := by
    simpa [startsWithMeta] using h
  obtain ⟨k, hk, hpre⟩ := hex
  fin_cases hk <;>
    simp only [List.isPrefixOf, Bool.and_eq_true, beq_iff_eq] at hpre
  · exact Or.inl hpre.1.symm
  · exact Or.inr (Or.inl hpre.1.symm)
  · exact Or.inr (Or.inr (Or.inl hpre.1.symm))
  · exact Or.inr (Or.inr (Or.inr hpre.1.symm))

lemma startsWithMeta_not_digit (l : List Char) (h : startsWithMeta l = true) :
    pyIsDigit l = false := by
  cases l with
  | nil => exact absurd h (by decide)
  | cons c rest =>
    rcases startsWithMeta_head c rest h with h1 | h1 | h1 | h1 <;>
      subst h1 <;> simp [pyIsDigit]

lemma startsWithMeta_not_empty (l : List Char) (h : startsWithMeta l = true) :
    l.isEmpty = false := by
  cases l with
  | nil => exact absurd h (by decide)
  | cons c rest => rfl

lemma meta_step_id (st : Bool × List (List Char)) (raw : List Char)
    (h1 : hasArrow (pyStrip raw) = false)
    (h4 : startsWithMeta (pyStrip raw) = true) :
    vttLineStep st raw = st := by
  rw [vttLineStep, h1, startsWithMeta_not_empty _ h4, startsWithMeta_not_digit _ h4, h4]
  simp

/-! ## Claim theorems -/

/-- Counterexample for C1 as stated: at the positive duration of 882009
frames at 44100 Hz (20.00020... seconds) with the fixed 10-second
window, the code generates 3 chunks but pydub's rounded `len(audio)` is
20000 ms, so the last chunk interval is empty: its start equals its
end.  This refutes the claim that the last chunk is never zero-length
when `duration_seconds > 0`. -/
theorem chunk_zero_length_cex :
    0 < c1BadSec
    ∧ numChunksSec c1BadSec 10 = 3
    ∧ chunkStart 10 (numChunksSec c1BadSec 10 - 1)
        = chunkEndSec c1BadSec 10 (numChunksSec c1BadSec 10 - 1) := by
  have hceil : Int.ceil (c1BadSec / ((10 : ℕ) : ℚ)) = 3 := by
    rw [Int.ceil_eq_iff]
    constructor <;> norm_num [c1BadSec]
  have hn : numChunksSec c1BadSec 10 = 3 := by
    rw [numChunksSec, hceil]
    rfl
  have hfloor : Int.floor ((1000 : ℚ) * c1BadSec) = 20000 := by
    rw [Int.floor_eq_iff]
    constructor <;> norm_num [c1BadSec]
  have hround : pyRound (1000 * c1BadSec) = 20000 := by
    rw [pyRound, hfloor, if_pos (by norm_num [c1BadSec])]
  have hL : audioLen c1BadSec = 20000 := by
    rw [audioLen, hround]
    rfl
  refine ⟨by norm_num [c1BadSec], hn, ?_⟩
  rw [hn, chunkStart, chunkEndSec, hL]
  decide

/-- Claim C1 (amended): for every positive fractional duration and
positive window, the chunk intervals are contiguous, non-overlapping,
and their union is exactly the half-open interval from 0 to
`len(audio)` = `round(1000 * duration_seconds)`; the last chunk is
non-empty if and only if `len(audio)` strictly exceeds the last full
window boundary `(num_chunks - 1) * window_ms` — which can fail, since
`num_chunks` is computed from the unrounded `duration_seconds`, when
`1000 * duration_seconds` exceeds a whole number of windows by at most
one half. -/
theorem chunk_intervals_cover_amended (s : ℚ) (w : ℕ) (hs : 0 < s) (hw : 0 < w) :
    (∀ i, i + 1 < numChunksSec s w → chunkEndSec s w i = chunkStart w (i + 1))
    ∧ (∀ i j, i < j → j < numChunksSec s w → chunkEndSec s w i ≤ chunkStart w j)
    ∧ (∀ t, t < audioLen s ↔
        ∃ i, i < numChunksSec s w ∧ chunkStart w i ≤ t ∧ t < chunkEndSec s w i)
    ∧ (chunkStart w (numChunksSec s w - 1) ≤ chunkEndSec s w (numChunksSec s w - 1)
      ∧ (chunkStart w (numChunksSec s w - 1) < chunkEndSec s w (numChunksSec s w - 1)
          ↔ (numChunksSec s w - 1) * (w * 1000) < audioLen s)) := by
  obtain ⟨hA, hB, hn⟩ := chunkSec_bounds s w hs hw
  set n := numChunksSec s w with hndef
  set L := audioLen s with hLdef
  set W := w * 1000 with hWdef
  have hW : 0 < W := by positivity
  have hassoc : ∀ i : Nat, i * w * 1000 = i * W := fun i => by
    rw [hWdef, Nat.mul_assoc]
  refine ⟨?_, ?_, ?_, ?_, ?_⟩
  · intro i hi
    have hle : (i + 1) * W ≤ (n - 1) * W := Nat.mul_le_mul_right W (by omega)
    rw [chunkEndSec, chunkStart, hassoc]
    rw [← hLdef]
    exact Nat.min_eq_left (le_trans hle hA)
  · intro i j hij hj
    rw [chunkEndSec, chunkStart, hassoc, hassoc]
    exact le_trans (Nat.min_le_left _ _) (Nat.mul_le_mul_right W (by omega))
  · intro t
    constructor
    · intro ht
      refine ⟨t / W, ?_, ?_, ?_⟩
      · rw [Nat.div_lt_iff_lt_mul hW]; omega
      · rw [chunkStart, hassoc]
        exact Nat.div_mul_le_self t W
      · rw [chunkEndSec, hassoc, ← hLdef]
        exact lt_min (lt_succ_div_mul t W hW) ht
    · rintro ⟨i, hi, hsle, he⟩
      rw [chunkEndSec, ← hLdef] at he
      exact lt_of_lt_of_le he (Nat.min_le_right _ _)
  · have hn1 : n - 1 + 1 = n := Nat.succ_pred_eq_of_pos hn
    rw [chunkStart, chunkEndSec, hn1, hassoc, hassoc, ← hLdef, Nat.min_eq_right hB]
    exact hA
  · have hn1 : n - 1 + 1 = n := Nat.succ_pred_eq_of_pos hn
    rw [chunkStart, chunkEndSec, hn1, hassoc, hassoc, ← hLdef, Nat.min_eq_right hB]

/-- Witness for the amended C1 at an exact 25-second stream with the
10-second window. -/
theorem chunk_intervals_cover_amended_witness :
    chunkStart 10 (numChunksSec 25 10 - 1) ≤ chunkEndSec 25 10 (numChunksSec 25 10 - 1) :=
  (chunk_intervals_cover_amended 25 10 (by norm_num) (by decide)).2.2.2.1

/-- Claim C2: the number of chunks equals the ceiling of
`duration_seconds / window_seconds`, chunk `i` runs from
`i * window_seconds * 1000` to
`min((i + 1) * window_seconds * 1000, total_duration_ms)`, and a
25-second stream with the fixed 10-second window yields exactly the
three chunks claimed. -/
theorem chunk_count_and_boundaries (d w : Nat) (hd : 0 < d) (hw : 0 < w) :
    ((numChunks d w : ℤ) = Int.ceil ((d : ℚ) / 1000 / w)
      ∧ ∀ i, chunkStart w i = i * w * 1000 ∧ chunkEnd d w i = min ((i + 1) * w * 1000) d)
    ∧ (numChunks 25000 chunk_size_sec = 3
      ∧ chunkList 25000 chunk_size_sec
          = [(0, 10000), (10000, 20000), (20000, 25000)]) := by
  have h3 : numChunks 25000 chunk_size_sec = 3 := by
    rw [numChunks_eq _ _ (by decide)]
    decide
  refine ⟨⟨?_, fun i => ⟨rfl, rfl⟩⟩, h3, ?_⟩
  · rw [numChunks]
    exact Int.toNat_of_nonneg (Int.ceil_nonneg (by positivity))
  · rw [chunkList, h3]
    decide

/-- Witness for C2: the 25-second example has exactly 3 chunks. -/
theorem chunk_count_witness : numChunks 25000 chunk_size_sec = 3 :=
  (chunk_count_and_boundaries 25000 chunk_size_sec (by decide) (by decide)).2.1

/-- Counterexample for C3 as stated: with the single per-chunk result
`" a"` (leading whitespace), the code returns `"a"`, not the
space-joined text with only its trailing whitespace trimmed, which
would keep the leading space. -/
theorem merge_trailing_trim_cex :
    transcribe_audio (fun _ => (Except.ok (' ' :: 'a' :: []) : Except Unit (List Char))) 1
      ≠ some (stripTrail (joinSpace [(' ' :: 'a' :: [])])) := by decide

/-- Claim C3 (amended): the returned transcript equals the per-chunk
texts joined with single spaces in chunk-index order — no segment
dropped, even if empty — with leading as well as trailing whitespace
trimmed from the final result, because the code calls Python `strip()`
on the accumulated text. -/
theorem merge_strip_amended (segs : List (List Char)) :
    transcribe_audio (fun i => (Except.ok (segs.getD i []) : Except Unit (List Char)))
        segs.length
      = some (pyStrip (joinSpace segs)) := by
  unfold transcribe_audio
  rw [transcribeLoop_ok (fun i => (Except.ok (segs.getD i []) : Except Unit (List Char)))
      (fun i => segs.getD i []) (List.range segs.length) [] (fun i _ => rfl)]
  rw [map_getD_range]
  rcases segs with _ | ⟨s, rest⟩
  · simp [joinSp, joinSpace]
  · rw [joinSp_eq_joinSpace (s :: rest) (by simp)]
    simp [pyStrip_append_space]

/-- Claim C4: if any per-chunk transcription call fails, the whole run
returns no transcript at all, and the temporary per-chunk file is
released on both the success and the failure path of every chunk. -/
theorem chunk_failure_failfast :
    (∀ (tr : Nat → Except Unit (List Char)) (n i : Nat),
        i < n → tr i = Except.error () → transcribe_audio tr n = none)
    ∧ (∀ (tr : Nat → Except Unit (List Char)) (a : Nat),
        (process_audio_chunk tr a).2 = true) := by
  constructor
  · intro tr n i hi herr
    obtain ⟨e2, he2⟩ := transcribeLoop_err tr (List.range n) [] i ()
      (List.mem_range.2 hi) herr
    unfold transcribe_audio
    rw [he2]
  · intro tr a
    unfold process_audio_chunk
    cases tr a <;> rfl

/-- Witness for C4: a failing chunk makes the two-chunk run return none. -/
theorem chunk_failure_failfast_witness :
    transcribe_audio (fun _ => (Except.error () : Except Unit (List Char))) 2 = none :=
  chunk_failure_failfast.1 (fun _ => Except.error ()) 2 0 (by decide) rfl

/-- Claim C5: the fallback extractor's output is exactly the retained,
tag-stripped, nonempty cue-body lines of the declarative section 4.2
classification, joined with a single space in document order, and the
section 8.5 example yields the claimed text. -/
theorem cue_extraction_output :
    (∀ content : List Char,
        vttFallbackOutput content = joinSpace (specExtract false (splitNl content)))
    ∧ vttFallbackOutput ex85 = "Hello world Second line".toList := by
  constructor
  · intro content
    unfold vttFallbackOutput vttExtractLines
    rw [foldl_vtt_eq_spec]
    simp
  · decide

/-- Claim C6: when the structured library path fails on an input that
the fallback accepts, `read_vtt_file` does not propagate the failure:
it returns the fallback output and reports a warning, not an error. -/
theorem library_failure_fallback :
    ∀ (lib : List Char → Except Unit (List (List Char))) (content : List Char),
      lib content = Except.error () →
      webvttHeader.isPrefixOf content = true →
      read_vtt_file true lib content = (Except.ok (vttFallbackOutput content), true) := by
  intro lib content hlib hh
  simp [read_vtt_file, hlib, hh]

/-- Witness for C6 on the section 8.5 example with an always-failing
library. -/
theorem library_failure_fallback_witness :
    read_vtt_file true (fun _ => Except.error ()) ex85
      = (Except.ok (vttFallbackOutput ex85), true) :=
  library_failure_fallback (fun _ => Except.error ()) ex85 rfl (by decide)

/-- Claim C7: `read_vtt_file` raises a FormatError exactly when the
library path did not succeed and the input lacks the WEBVTT header
token; for every header-bearing input the fallback path returns a
result rather than raising. -/
theorem format_error_iff_no_header :
    ∀ (avail : Bool) (lib : List Char → Except Unit (List (List Char)))
      (content : List Char),
      ((read_vtt_file avail lib content).1 = Except.error VttErr.formatError
        ↔ (avail = false ∨ (lib content).isOk = false)
          ∧ webvttHeader.isPrefixOf content = false)
      ∧ (webvttHeader.isPrefixOf content = true →
          (read_vtt_file false lib content).1 = Except.ok (vttFallbackOutput content)) := by
  intro avail lib content
  constructor
  · cases avail <;> cases hlib : lib content <;>
      cases hhdr : webvttHeader.isPrefixOf content <;>
      simp [read_vtt_file, hlib, hhdr, Except.isOk, Except.toBool]
  · intro hh
    simp [read_vtt_file, hh]

/-- Witness for C7: the header-bearing section 8.5 input does not raise
on the fallback path. -/
theorem format_error_witness :
    (read_vtt_file false (fun _ => Except.error ()) ex85).1
      = Except.ok (vttFallbackOutput ex85) :=
  (format_error_iff_no_header false (fun _ => Except.error ()) ex85).2 (by decide)

/-- Counterexample for C8 as stated: a line whose trimmed content starts
with NOTE but which contains the cue-timing marker is not discarded —
its presence flips the in-cue state and changes the output. -/
theorem metadata_discard_cex :
    startsWithMeta (pyStrip c8NoteLine) = true
    ∧ vttExtractLines [c8NoteLine, ['x']] ≠ vttExtractLines [['x']] := by
  decide

/-- Claim C8 (amended): every line whose trimmed content starts with
WEBVTT, NOTE, STYLE, or REGION and which does not contain the
cue-timing marker is discarded entirely — the state and the output are
as if the line were absent — even inside an active cue body; a line
containing the marker is instead treated as a cue-start line. -/
theorem metadata_discard_amended :
    ∀ (pre post : List (List Char)) (line : List Char),
      hasArrow (pyStrip line) = false → startsWithMeta (pyStrip line) = true →
      vttExtractLines (pre ++ line :: post) = vttExtractLines (pre ++ post) := by
  intro pre post line h1 h4
  unfold vttExtractLines
  rw [List.foldl_append, List.foldl_append, List.foldl_cons, meta_step_id _ _ h1 h4]

/-- Witness for C8: the cue-body line NOTE this was cut is discarded. -/
theorem metadata_discard_witness :
    vttExtractLines [c8TsLine, "NOTE this was cut".toList, "Hello".toList]
      = vttExtractLines [c8TsLine, "Hello".toList] :=
  metadata_discard_amended [c8TsLine] ["Hello".toList] "NOTE this was cut".toList
    (by decide) (by decide)

/-- Claim C9: after chunk `i` of `n` completes the emitted progress is
`(i + 1) / n` with ETA `elapsed / progress - elapsed`, and the guard
makes the ETA zero when the completed fraction is zero, so no division
by zero is performed. -/
theorem progress_eta_guard :
    ∀ (i n : Nat) (elapsed : ℚ),
      (0 < n →
        progressUpdate i n elapsed
          = (((i : ℚ) + 1) / n, elapsed / (((i : ℚ) + 1) / n) - elapsed))
      ∧ (progressUpdate i 0 elapsed).2 = 0 := by
  intro i n elapsed
  constructor
  · intro hn
    have hnq : (0 : ℚ) < n := by exact_mod_cast hn
    have hp : ((i : ℚ) + 1) / n > 0 := by positivity
    simp [progressUpdate, hp]
  · simp [progressUpdate]

/-- Witness for C9 after the first of four chunks with elapsed 8 s. -/
theorem progress_eta_witness :
    progressUpdate 0 4 8 = ((1 : ℚ) / 4, 8 / ((1 : ℚ) / 4) - 8) := by
  simpa using (progress_eta_guard 0 4 8).1 (by decide)

/-- Claim C10: the inline pasted-text extraction loop and the
line-classification fallback loop of `read_vtt_file` compute the same
function on every input; on header-bearing input the fallback path of
`read_vtt_file` returns exactly the pasted-path output, while on
header-less input only `read_vtt_file` raises — the pasted path still
returns its loop output. -/
theorem pasted_loop_equiv :
    (∀ content, pastedVttOutput content = vttFallbackOutput content)
    ∧ (∀ (lib : List Char → Except Unit (List (List Char))) (content : List Char),
        webvttHeader.isPrefixOf content = true →
        (read_vtt_file false lib content).1 = Except.ok (pastedVttOutput content))
    ∧ (∀ (lib : List Char → Except Unit (List (List Char))) (content : List Char),
        webvttHeader.isPrefixOf content = false →
        (read_vtt_file false lib content).1 = Except.error VttErr.formatError) := by
  have hstep : pastedLineStep = vttLineStep := rfl
  have hout : ∀ content, pastedVttOutput content = vttFallbackOutput content := by
    intro content
    unfold pastedVttOutput vttFallbackOutput vttExtractLines
    rw [hstep]
  refine ⟨hout, ?_, ?_⟩
  · intro lib content hh
    simp [read_vtt_file, hh, hout]
  · intro lib content hh
    simp [read_vtt_file, hh]

/-- Witness for C10 on the section 8.5 example. -/
theorem pasted_loop_equiv_witness :
    (read_vtt_file false (fun _ => Except.error ()) ex85).1
      = Except.ok (pastedVttOutput ex85) :=
  pasted_loop_equiv.2.1 (fun _ => Except.error ()) ex85 (by decide)

end WhisperApp

